import Mathlib

/-!
Verification of the task-composition and scheduling layer of the
scantailor-advanced main window (src/MainWindow.cpp).

The development shallowly embeds the scheduling-relevant functions of
MainWindow.cpp: the composite task builders, the batch enqueue loop, the
pool refill loops, the result-delivery handler, the stage-selection-change
handler and the thumbnail-sequence selection reset.  Collaborator classes
that are not part of the given sources (ProcessingTaskQueue,
WorkerThreadPool, ThumbnailSequence, StageSequence) are modelled from the
specification's contracts; each such definition says so in its doc comment.
-/

namespace ScanTailor

/-- A sub-page designator: a logical page is an image or one half of it. -/
inductive SubPage where
  | single
  | left
  | right
deriving DecidableEq

/-- Identity of a logical page: image identity plus sub-page tag
(PageId.h is not in the sources; the spec fixes equality as
(image identity, sub-page tag), which this mirrors). -/
structure PageId where
  image : Nat
  sub : SubPage
deriving DecidableEq

/-- Modelled from the spec: StageSequence is not among the sources; the
spec fixes the stage order as indices 0..5: fix-orientation, page-split,
deskew, select-content, page-layout, output.  Indices are C++ ints. -/
def fixOrientationFilterIdx : Int := 0

/-- Modelled from the spec: page-split stage index. -/
def pageSplitFilterIdx : Int := 1

/-- Modelled from the spec: deskew stage index. -/
def deskewFilterIdx : Int := 2

/-- Modelled from the spec: select-content stage index. -/
def selectContentFilterIdx : Int := 3

/-- Modelled from the spec: page-layout stage index. -/
def pageLayoutFilterIdx : Int := 4

/-- Modelled from the spec: output stage index. -/
def outputFilterIdx : Int := 5

/-- One constructed stage task: the owning stage index and the debug flag
value passed to the stage's createTask call (none when the signature has
no debug parameter, as for fix_orientation::Task). -/
structure StageTaskNode where
  stage : Int
  debugArg : Option Bool
deriving DecidableEq

/-- Embedding of MainWindow::createCompositeTask (MainWindow.cpp
lines 1938-1981).  A task together with its transitive chain of next
tasks is represented as the list of its nodes from that task downstream;
passing a null next task contributes the empty tail.  The six guarded
construction steps run from the output stage backward to fix-orientation,
exactly as in the source, and the debug flag is cleared inside each taken
branch, after being passed to that stage's createTask. -/
def createCompositeTask (lastFilterIdx : Int) (batch : Bool) (debugIn : Bool) :
    Option (List StageTaskNode) :=
  let debug := if batch then false else debugIn
  let outputTask : Option (List StageTaskNode) :=
    if lastFilterIdx ≥ outputFilterIdx then some [⟨outputFilterIdx, some debug⟩] else none
  let debug := if lastFilterIdx ≥ outputFilterIdx then false else debug
  let pageLayoutTask : Option (List StageTaskNode) :=
    if lastFilterIdx ≥ pageLayoutFilterIdx then
      some (⟨pageLayoutFilterIdx, some debug⟩ :: outputTask.getD []) else none
  let debug := if lastFilterIdx ≥ pageLayoutFilterIdx then false else debug
  let selectContentTask : Option (List StageTaskNode) :=
    if lastFilterIdx ≥ selectContentFilterIdx then
      some (⟨selectContentFilterIdx, some debug⟩ :: pageLayoutTask.getD []) else none
  let debug := if lastFilterIdx ≥ selectContentFilterIdx then false else debug
  let deskewTask : Option (List StageTaskNode) :=
    if lastFilterIdx ≥ deskewFilterIdx then
      some (⟨deskewFilterIdx, some debug⟩ :: selectContentTask.getD []) else none
  let debug := if lastFilterIdx ≥ deskewFilterIdx then false else debug
  let pageSplitTask : Option (List StageTaskNode) :=
    if lastFilterIdx ≥ pageSplitFilterIdx then
      some (⟨pageSplitFilterIdx, some debug⟩ :: deskewTask.getD []) else none
  let _debug := if lastFilterIdx ≥ pageSplitFilterIdx then false else debug
  let fixOrientationTask : Option (List StageTaskNode) :=
    if lastFilterIdx ≥ fixOrientationFilterIdx then
      some (⟨fixOrientationFilterIdx, none⟩ :: pageSplitTask.getD []) else none
  fixOrientationTask

/-- Embedding of MainWindow::createCompositeCacheDrivenTask
(MainWindow.cpp lines 1983-2013).  Cache-driven tasks carry no batch or
debug flags; a chain is the list of its stage indices from the head
downstream. -/
def createCompositeCacheDrivenTask (lastFilterIdx : Int) : Option (List Int) :=
  let outputTask : Option (List Int) :=
    if lastFilterIdx ≥ outputFilterIdx then some [outputFilterIdx] else none
  let pageLayoutTask : Option (List Int) :=
    if lastFilterIdx ≥ pageLayoutFilterIdx then
      some (pageLayoutFilterIdx :: outputTask.getD []) else none
  let selectContentTask : Option (List Int) :=
    if lastFilterIdx ≥ selectContentFilterIdx then
      some (selectContentFilterIdx :: pageLayoutTask.getD []) else none
  let deskewTask : Option (List Int) :=
    if lastFilterIdx ≥ deskewFilterIdx then
      some (deskewFilterIdx :: selectContentTask.getD []) else none
  let pageSplitTask : Option (List Int) :=
    if lastFilterIdx ≥ pageSplitFilterIdx then
      some (pageSplitFilterIdx :: deskewTask.getD []) else none
  let fixOrientationTask : Option (List Int) :=
    if lastFilterIdx ≥ fixOrientationFilterIdx then
      some (fixOrientationFilterIdx :: pageSplitTask.getD []) else none
  fixOrientationTask

/-- The stages a chain targeting stage S should contain, stated from the
spec's words: exactly the stages 0..S in order. -/
def stagesUpTo (s : Int) : List Int :=
  (List.range (s.toNat + 1)).map Int.ofNat

/-- The stage indices of a full composite chain, head first. -/
def chainStages (chain : Option (List StageTaskNode)) : List Int :=
  (chain.getD []).map StageTaskNode.stage

/-- Status of a queue entry: pending or currently processing. -/
inductive TaskStatus where
  | pending
  | processing
deriving DecidableEq

/-- A queue entry: page key plus status (the chained BackgroundTask
itself is irrelevant to the queue-shape claims). -/
structure QueueEntry where
  page : PageId
  status : TaskStatus
deriving DecidableEq

/-- Modelled from the spec: ProcessingTaskQueue is not among the sources;
per spec section 4.3 it is an ordered collection of entries keyed by page. -/
structure ProcessingTaskQueue where
  entries : List QueueEntry
deriving DecidableEq

/-- The page keys of a queue, in order. -/
def pagesOf (q : ProcessingTaskQueue) : List PageId :=
  q.entries.map QueueEntry.page

/-- Modelled from the spec: addProcessingTask registers a pending entry
for a page; it is a no-op if a pending or in-flight entry for that page
already exists (the single-flight invariant of spec section 4.3). -/
def addProcessingTask (q : ProcessingTaskQueue) (p : PageId) : ProcessingTaskQueue :=
  if p ∈ pagesOf q then q else ⟨q.entries ++ [⟨p, TaskStatus.pending⟩]⟩

/-- Modelled from the spec: cancelAndClear marks every entry cancelled
and empties the queue; only the emptying is visible to queue shape. -/
def cancelAndClear (_q : ProcessingTaskQueue) : ProcessingTaskQueue :=
  ⟨[]⟩

/-- Marks the first pending entry as processing, leaving the rest alone. -/
def markProcessing : List QueueEntry → List QueueEntry
  | [] => []
  | e :: rest =>
    if e.status = TaskStatus.pending then ⟨e.page, TaskStatus.processing⟩ :: rest
    else e :: markProcessing rest

/-- Modelled from the spec: takeForProcessing pops one pending entry,
transitioning it to processing, and returns its page; returns none when
no entry is pending.  The entry stays in the queue until
processingFinished removes it. -/
def takeForProcessing (q : ProcessingTaskQueue) : Option PageId × ProcessingTaskQueue :=
  ((q.entries.find? (fun e => e.status = TaskStatus.pending)).map QueueEntry.page,
    ⟨markProcessing q.entries⟩)

/-- Modelled from the spec: processingFinished removes the entry of a
completed task regardless of success or cancellation; it takes no
cancellation input at all. -/
def processingFinished (q : ProcessingTaskQueue) (p : PageId) : ProcessingTaskQueue :=
  ⟨q.entries.filter (fun e => e.page ≠ p)⟩

/-- Queue effect of MainWindow::loadPageInteractive (MainWindow.cpp
lines 1558-1596): the interactive queue is cleared (lines 1561 and 1593),
the page's composite task is registered (line 1594) and immediately taken
for processing and submitted (line 1595). -/
def loadPageInteractiveQueue (q : ProcessingTaskQueue) (p : PageId) : ProcessingTaskQueue :=
  (takeForProcessing (addProcessingTask (cancelAndClear (cancelAndClear q)) p)).2

/-- Successor of a page in a thumbnail sequence.  Modelled from the spec:
ThumbnailSequence is not among the sources; nextPage returns the page
following the given one in sequence order and a null page at the end
(MainWindow.cpp relies on this: goNextPage checks the result for null,
and the enqueue loop of startBatchProcessing terminates only because
nextPage eventually returns null). -/
def nextPage : List PageId → PageId → Option PageId
  | [], _ => none
  | a :: rest, p => if a = p then rest.head? else nextPage rest p

/-- The page visiting loop of MainWindow::startBatchProcessing
(lines 1100-1101): starting from the selection leader, visit pages via
nextPage until a null page is reached.  Fuel bounds the recursion; the
sequence length is always enough fuel. -/
def batchEnqueueAux (order : List PageId) : Nat → Option PageId → List PageId
  | _, none => []
  | 0, some _ => []
  | Nat.succ fuel, some p => p :: batchEnqueueAux order fuel (nextPage order p)

/-- The order in which MainWindow::startBatchProcessing enqueues pages
(MainWindow.cpp lines 1099-1106), given the sequence order and the
current selection leader. -/
def startBatchProcessingOrder (order : List PageId) (leader : Option PageId) : List PageId :=
  batchEnqueueAux order order.length leader

/-- Queue effect of MainWindow::startBatchProcessing on the two queues
(lines 1097-1106): the interactive queue is cancelled and cleared, and a
fresh batch queue is filled with one task per visited page. -/
def startBatchQueues (interactive : ProcessingTaskQueue) (order : List PageId)
    (leader : Option PageId) : ProcessingTaskQueue × ProcessingTaskQueue :=
  (cancelAndClear interactive,
    (startBatchProcessingOrder order leader).foldl addProcessingTask ⟨[]⟩)

/-- Concrete pages used by counterexamples and witnesses. -/
def pageA : PageId := ⟨0, SubPage.single⟩

/-- Concrete page B. -/
def pageB : PageId := ⟨1, SubPage.single⟩

/-- Concrete page C. -/
def pageC : PageId := ⟨2, SubPage.single⟩

/-- The take-and-submit refill loop shared by
MainWindow::startBatchProcessing (MainWindow.cpp lines 1114-1124) and
MainWindow::filterResult (lines 1219-1225): repeatedly take a pending
batch task and submit it, stopping after a submission that leaves the
pool with no spare capacity or when no pending task remains.  Modelled
from the spec for the collaborators not in the sources: takeForProcessing
yields a task while pending tasks remain, submitTask occupies one worker,
and hasSpareCapacity reports running strictly below capacity.  Both
source loops submit once after taking and then test capacity, which this
single function mirrors. -/
def batchRefillLoop (capacity : Nat) : Nat → Nat → Nat × Nat
  | 0, running => (0, running)
  | pending + 1, running =>
    if running + 1 < capacity then batchRefillLoop capacity pending (running + 1)
    else (pending, running + 1)

/-- Externally visible steps taken by MainWindow::filterResult. -/
inductive FRAction where
  | interactiveFinished
  | batchFinished
  | redirectFocus (idx : Int)
  | deliverResult
  | stopBatch
  | goFirstPage
  | submitTask
  | setSelectedPage
deriving DecidableEq

/-- The state MainWindow::filterResult reads: the completed task's
cancellation flag, whether a batch queue exists, the stage index of the
result's originating filter (none models a null filter, an error loading
the file; StageSequence::findFilter is modelled as yielding that stage's
index), the current filter index, and the batch-completion and pool data
read by the batch branch. -/
structure FRState where
  cancelled : Bool
  batchPresent : Bool
  resultFilterIdx : Option Int
  curFilter : Int
  batchAllProcessed : Bool
  finishedAtLastPage : Bool
  poolCapacity : Nat
  poolRunning : Nat
  batchPending : Nat
  batchSelectedPageNull : Bool

/-- The queue bookkeeping filterResult performs first (MainWindow.cpp
lines 1163-1167): processingFinished on the interactive queue, then on
the batch queue when one exists. -/
def finishedActions (s : FRState) : List FRAction :=
  FRAction.interactiveFinished :: (if s.batchPresent then [FRAction.batchFinished] else [])

/-- Embedding of MainWindow::filterResult (MainWindow.cpp
lines 1162-1232) as the ordered list of its externally visible actions
together with the resulting current filter index.  Queue bookkeeping
comes first; a cancelled task returns right after it; otherwise, outside
batch mode a result from a non-null filter other than the current one
redirects focus; the result is delivered (updateUI); and in batch mode
the handler either stops batch processing when all pages are processed or
refills the worker pool and restores the tracked selection. -/
def filterResult (s : FRState) : List FRAction × Int :=
  if s.cancelled then (finishedActions s, s.curFilter)
  else
    let redirect : List FRAction × Int :=
      if s.batchPresent then ([], s.curFilter)
      else
        match s.resultFilterIdx with
        | none => ([], s.curFilter)
        | some idx =>
          if idx = s.curFilter then ([], s.curFilter) else ([FRAction.redirectFocus idx], idx)
    let acts := finishedActions s ++ redirect.1 ++ [FRAction.deliverResult]
    if s.batchPresent then
      if s.batchAllProcessed then
        (acts ++ [FRAction.stopBatch] ++
          (if s.finishedAtLastPage then [FRAction.goFirstPage] else []), redirect.2)
      else
        (acts ++
          List.replicate
            (s.batchPending - (batchRefillLoop s.poolCapacity s.batchPending s.poolRunning).1)
            FRAction.submitTask ++
          (if s.batchSelectedPageNull then [] else [FRAction.setSelectedPage]), redirect.2)
    else (acts, redirect.2)

/-- Embedding of MainWindow::isBelowSelectContent (MainWindow.cpp
lines 1506-1508): a stage is below select-content when its index is
strictly greater than the select-content index. -/
def isBelowSelectContent (filterIdx : Int) : Bool :=
  selectContentFilterIdx < filterIdx

/-- Embedding of MainWindow::isBelowFixOrientation (MainWindow.cpp
lines 1510-1512). -/
def isBelowFixOrientation (filterIdx : Int) : Bool :=
  fixOrientationFilterIdx < filterIdx

/-- Externally visible steps taken by MainWindow::filterSelectionChanged. -/
inductive FSCAction where
  | cancelInteractive
  | cancelBatch
  | contentBoxPropagate
  | orientationPropagate
  | resetThumbs
  | updateMain
deriving DecidableEq

/-- The state MainWindow::filterSelectionChanged reads: the two
early-return guards, the previous and newly selected filter indices,
whether a batch queue unexpectedly exists, and whether the two
propagators have been created (they are null before a project is
loaded). -/
structure FSCState where
  ignoreSelectionChanges : Bool
  selectionEmpty : Bool
  curFilter : Int
  newFilter : Int
  batchPresent : Bool
  contentBoxPropagatorPresent : Bool
  pageOrientationPropagatorPresent : Bool

/-- Embedding of MainWindow::filterSelectionChanged (MainWindow.cpp
lines 982-1042) as the ordered list of its externally visible actions:
after the guards, both queues are cancelled, the below-boundary flags are
computed for the old and the new filter index, the content-box propagator
runs on a not-below to below crossing of the select-content boundary,
then the page-orientation propagator symmetrically for the
fix-orientation boundary, then the thumbnail sequence is reset and the
main area updated. -/
def filterSelectionChanged (s : FSCState) : List FSCAction :=
  if s.ignoreSelectionChanges then []
  else if s.selectionEmpty then []
  else
    let wasBelowFixOrientation := isBelowFixOrientation s.curFilter
    let wasBelowSelectContent := isBelowSelectContent s.curFilter
    let nowBelowFixOrientation := isBelowFixOrientation s.newFilter
    let nowBelowSelectContent := isBelowSelectContent s.newFilter
    FSCAction.cancelInteractive ::
      ((if s.batchPresent then [FSCAction.cancelBatch] else []) ++
        (if !wasBelowSelectContent && nowBelowSelectContent then
          (if s.contentBoxPropagatorPresent then [FSCAction.contentBoxPropagate] else [])
        else []) ++
        (if !wasBelowFixOrientation && nowBelowFixOrientation then
          (if s.pageOrientationPropagatorPresent then [FSCAction.orientationPropagate] else [])
        else []) ++
        [FSCAction.resetThumbs, FSCAction.updateMain])

/-- Modelled from the spec: ThumbnailSequence::setSelection is not among
the sources; it succeeds exactly when the requested page is present in
the sequence. -/
def setSelection (seq : List PageId) (p : PageId) : Bool :=
  decide (p ∈ seq)

/-- The selection choice of MainWindow::resetThumbSequence
(MainWindow.cpp lines 609-623) when the reset does not keep the existing
selection: try the remembered page with its own sub-page tag, then its
image as a left page, a right page, a single page, and as a last resort
the first page of the sequence (none when the sequence is empty). -/
def resetThumbSequenceSelection (seq : List PageId) (remembered : PageId) : Option PageId :=
  if setSelection seq remembered then some remembered
  else if setSelection seq ⟨remembered.image, SubPage.left⟩ then
    some ⟨remembered.image, SubPage.left⟩
  else if setSelection seq ⟨remembered.image, SubPage.right⟩ then
    some ⟨remembered.image, SubPage.right⟩
  else if setSelection seq ⟨remembered.image, SubPage.single⟩ then
    some ⟨remembered.image, SubPage.single⟩
  else seq.head?

/-- Claim C2: for every target stage index S in 0..5, the composite task
builder produces a chain containing exactly the stages 0..S in order (so
no stage above S is included and the head is the fix-orientation task),
and the cache-driven builder produces a chain of the same topology. -/
theorem c2_composite_chain_exact_stages (s : Int) (batch debug : Bool)
    (h0 : 0 ≤ s) (h5 : s ≤ 5) :
    chainStages (createCompositeTask s batch debug) = stagesUpTo s ∧
    createCompositeCacheDrivenTask s = some (stagesUpTo s) ∧
    (chainStages (createCompositeTask s batch debug)).head? = some fixOrientationFilterIdx := by
  interval_cases s <;> revert batch debug <;> decide

/-- Witness for C2 at S = 2: the chain is fix-orientation, page-split,
deskew and nothing else. -/
theorem c2_composite_chain_exact_stages_witness :
    chainStages (createCompositeTask 2 false true) = stagesUpTo 2 ∧
    createCompositeCacheDrivenTask 2 = some (stagesUpTo 2) ∧
    (chainStages (createCompositeTask 2 false true)).head? = some fixOrientationFilterIdx :=
  c2_composite_chain_exact_stages 2 false true (by decide) (by decide)

/-- Claim C10: for every valid stage index S in 0..5, both builders
produce a non-null chain head, and that head is the fix-orientation task;
the terminal assertion in each builder never fails. -/
theorem c10_builders_total_nonnull_head (s : Int) (batch debug : Bool)
    (h0 : 0 ≤ s) (h5 : s ≤ 5) :
    (createCompositeTask s batch debug).isSome = true ∧
    (createCompositeCacheDrivenTask s).isSome = true ∧
    ((createCompositeTask s batch debug).getD []).head?.map StageTaskNode.stage =
      some fixOrientationFilterIdx ∧
    ((createCompositeCacheDrivenTask s).getD []).head? = some fixOrientationFilterIdx := by
  interval_cases s <;> revert batch debug <;> decide

/-- Witness for C10 at S = 0: the chain head exists and is the
fix-orientation task. -/
theorem c10_builders_total_nonnull_head_witness :
    (createCompositeTask 0 true false).isSome = true ∧
    (createCompositeCacheDrivenTask 0).isSome = true ∧
    ((createCompositeTask 0 true false).getD []).head?.map StageTaskNode.stage =
      some fixOrientationFilterIdx ∧
    ((createCompositeCacheDrivenTask 0).getD []).head? = some fixOrientationFilterIdx :=
  c10_builders_total_nonnull_head 0 true false (by decide) (by decide)

/-- Claim C4: in any composite-task request with target stage S in 0..5,
at most one constructed stage receives a debug flag of true; any stage
that does is stage S itself (the most-downstream requested stage); and if
the batch flag is set no stage receives a true debug flag. -/
theorem c4_debug_flag_consumed_once (s : Int) (batch debug : Bool)
    (h0 : 0 ≤ s) (h5 : s ≤ 5) :
    ((createCompositeTask s batch debug).getD []).countP
        (fun n => n.debugArg = some true) ≤ 1 ∧
    (∀ n ∈ (createCompositeTask s batch debug).getD [],
        n.debugArg = some true → n.stage = s) ∧
    (batch = true →
      ((createCompositeTask s batch debug).getD []).countP
        (fun n => n.debugArg = some true) = 0) := by
  interval_cases s <;> revert batch debug <;> decide

/-- Witness for C4 at S = 5 with debug requested and not in batch mode:
only the output stage receives the debug flag. -/
theorem c4_debug_flag_consumed_once_witness :
    ((createCompositeTask 5 false true).getD []).countP
        (fun n => n.debugArg = some true) ≤ 1 ∧
    (∀ n ∈ (createCompositeTask 5 false true).getD [],
        n.debugArg = some true → n.stage = 5) ∧
    (false = true →
      ((createCompositeTask 5 false true).getD []).countP
        (fun n => n.debugArg = some true) = 0) :=
  c4_debug_flag_consumed_once 5 false true (by decide) (by decide)

/-- Adding a page present in the queue is a no-op. -/
theorem addProcessingTask_mem {q : ProcessingTaskQueue} {p : PageId}
    (h : p ∈ pagesOf q) : addProcessingTask q p = q := by
  simp [addProcessingTask, h]

/-- Adding a page not yet in the queue appends its entry. -/
theorem addProcessingTask_not_mem {q : ProcessingTaskQueue} {p : PageId}
    (h : p ∉ pagesOf q) : pagesOf (addProcessingTask q p) = pagesOf q ++ [p] := by
  unfold addProcessingTask
  rw [if_neg h]
  simp [pagesOf]

/-- addProcessingTask preserves distinctness of page keys. -/
theorem addProcessingTask_nodup {q : ProcessingTaskQueue} (p : PageId)
    (h : (pagesOf q).Nodup) : (pagesOf (addProcessingTask q p)).Nodup := by
  by_cases hp : p ∈ pagesOf q
  · rw [addProcessingTask_mem hp]
    exact h
  · rw [addProcessingTask_not_mem hp]
    refine List.Nodup.append h (List.nodup_singleton p) ?_
    intro a ha hb
    rw [List.mem_singleton] at hb
    exact hp (hb ▸ ha)

/-- Folding addProcessingTask over any page list preserves distinctness. -/
theorem foldl_addProcessingTask_nodup (ps : List PageId) (q : ProcessingTaskQueue)
    (h : (pagesOf q).Nodup) : (pagesOf (ps.foldl addProcessingTask q)).Nodup := by
  induction ps generalizing q with
  | nil => exact h
  | cons p rest ih => exact ih _ (addProcessingTask_nodup p h)

/-- Claim C1: at most one queue entry per page exists at any time.
Registering a page already present (pending or processing) is a no-op, so
submitting a second task for a page before the first completes changes
nothing; page keys stay distinct under registration; loadPageInteractive
clears the interactive queue before adding, leaving exactly one entry;
and startBatchProcessing clears the interactive queue and builds a batch
queue whose page keys are distinct. -/
theorem c1_single_entry_per_page :
    (∀ (q : ProcessingTaskQueue) (p : PageId), p ∈ pagesOf q → addProcessingTask q p = q) ∧
    (∀ (q : ProcessingTaskQueue) (p : PageId),
      addProcessingTask (addProcessingTask q p) p = addProcessingTask q p) ∧
    (∀ (q : ProcessingTaskQueue) (p : PageId), (pagesOf q).Nodup →
      (pagesOf (addProcessingTask q p)).Nodup) ∧
    (∀ (q : ProcessingTaskQueue) (p : PageId), pagesOf (loadPageInteractiveQueue q p) = [p]) ∧
    (∀ (q : ProcessingTaskQueue) (order : List PageId) (leader : Option PageId),
      (startBatchQueues q order leader).1.entries = []) ∧
    (∀ (q : ProcessingTaskQueue) (order : List PageId) (leader : Option PageId),
      (pagesOf (startBatchQueues q order leader).2).Nodup) := by
  refine ⟨fun q p h => addProcessingTask_mem h, fun q p => ?_,
    fun q p h => addProcessingTask_nodup p h,
    fun q p => ?_, fun q order leader => rfl, fun q order leader => ?_⟩
  · apply addProcessingTask_mem
    by_cases hp : p ∈ pagesOf q
    · rw [addProcessingTask_mem hp]
      exact hp
    · rw [addProcessingTask_not_mem hp]
      simp
  · simp [loadPageInteractiveQueue, cancelAndClear, addProcessingTask, pagesOf,
      takeForProcessing, markProcessing]
  · exact foldl_addProcessingTask_nodup _ _ (by simp [pagesOf])

/-- Witness for C1 at a concrete page and queue: an entry already in
processing state blocks re-registration, and loadPageInteractive leaves a
single entry. -/
theorem c1_single_entry_per_page_witness :
    addProcessingTask ⟨[⟨⟨0, SubPage.single⟩, TaskStatus.processing⟩]⟩ ⟨0, SubPage.single⟩ =
      (⟨[⟨⟨0, SubPage.single⟩, TaskStatus.processing⟩]⟩ : ProcessingTaskQueue) ∧
    pagesOf (loadPageInteractiveQueue ⟨[]⟩ ⟨1, SubPage.left⟩) = [⟨1, SubPage.left⟩] ∧
    (pagesOf (startBatchQueues ⟨[]⟩ [⟨0, SubPage.single⟩] (some ⟨0, SubPage.single⟩)).2).Nodup :=
  ⟨c1_single_entry_per_page.1 _ _ (by decide),
    c1_single_entry_per_page.2.2.2.1 ⟨[]⟩ ⟨1, SubPage.left⟩,
    c1_single_entry_per_page.2.2.2.2.2 ⟨[]⟩ [⟨0, SubPage.single⟩] (some ⟨0, SubPage.single⟩)⟩

/-- nextPage finds the page and returns the head of what follows it. -/
theorem nextPage_append {xs ys : List PageId} {p : PageId} (h : p ∉ xs) :
    nextPage (xs ++ p :: ys) p = ys.head? := by
  induction xs with
  | nil => simp [nextPage]
  | cons a rest ih =>
    have ha : a ≠ p := by
      intro e
      exact h (e ▸ List.mem_cons_self a rest)
    have hrest : p ∉ rest := fun hm => h (List.mem_cons_of_mem a hm)
    simp [nextPage, ha, ih hrest]

/-- The enqueue loop started at a page of a duplicate-free sequence
visits exactly that page and the pages after it, in order, given enough
fuel. -/
theorem batchEnqueueAux_append (fuel : Nat) :
    ∀ (xs ys : List PageId) (p : PageId), (xs ++ p :: ys).Nodup → ys.length < fuel →
      batchEnqueueAux (xs ++ p :: ys) fuel (some p) = p :: ys := by
  induction fuel with
  | zero =>
    intro xs ys p _ hlen
    omega
  | succ fuel ih =>
    intro xs ys p hnd hlen
    have hdisj : xs.Disjoint (p :: ys) := (List.nodup_append.mp hnd).2.2
    have hp : p ∉ xs := fun hm => hdisj hm (List.mem_cons_self p ys)
    match ys with
    | [] =>
      simp [batchEnqueueAux, nextPage_append hp]
    | q :: ys' =>
      have hassoc : xs ++ p :: q :: ys' = (xs ++ [p]) ++ q :: ys' := by simp
      have hnd' : ((xs ++ [p]) ++ q :: ys').Nodup := hassoc ▸ hnd
      have hlen' : ys'.length < fuel := by
        simp at hlen
        omega
      calc batchEnqueueAux (xs ++ p :: q :: ys') (fuel + 1) (some p)
          = p :: batchEnqueueAux (xs ++ p :: q :: ys') fuel (some q) := by
            simp [batchEnqueueAux, nextPage_append hp]
        _ = p :: q :: ys' := by
            rw [hassoc, ih (xs ++ [p]) ys' q hnd' hlen']

/-- Counterexample to claim C3 as stated: over the page set {A, B, C}
with selection leader B, startBatchProcessing enqueues B, C only - the
order is not the wrapped order B, C, A, and page A is never enqueued at
all, so not every page of the set is enqueued. -/
theorem c3_counterexample_no_wraparound :
    startBatchProcessingOrder [pageA, pageB, pageC] (some pageB) = [pageB, pageC] ∧
    startBatchProcessingOrder [pageA, pageB, pageC] (some pageB) ≠ [pageB, pageC, pageA] ∧
    pageA ∉ startBatchProcessingOrder [pageA, pageB, pageC] (some pageB) := by
  decide

/-- Claim C3, amended: when a batch run starts over a duplicate-free page
sequence with selection leader L, pages are enqueued in page-sequence
order starting at L and continuing to the last page of the sequence,
without wrapping around; each page at or after L is enqueued exactly
once, and pages before L are not enqueued. -/
theorem c3_batch_enqueue_order (xs ys : List PageId) (p : PageId)
    (h : (xs ++ p :: ys).Nodup) :
    startBatchProcessingOrder (xs ++ p :: ys) (some p) = p :: ys ∧
    ∀ x ∈ xs, x ∉ startBatchProcessingOrder (xs ++ p :: ys) (some p) := by
  have hlen : ys.length < (xs ++ p :: ys).length := by
    simp
    omega
  have hmain : startBatchProcessingOrder (xs ++ p :: ys) (some p) = p :: ys :=
    batchEnqueueAux_append _ xs ys p h hlen
  refine ⟨hmain, fun x hx hmem => ?_⟩
  rw [hmain] at hmem
  exact (List.nodup_append.mp h).2.2 hx hmem

/-- Witness for C3 (amended) on the concrete three-page sequence with
leader B: the enqueue order is B then C, and A is skipped. -/
theorem c3_batch_enqueue_order_witness :
    startBatchProcessingOrder ([pageA] ++ pageB :: [pageC]) (some pageB) = pageB :: [pageC] ∧
    ∀ x ∈ [pageA], x ∉ startBatchProcessingOrder ([pageA] ++ pageB :: [pageC]) (some pageB) :=
  c3_batch_enqueue_order [pageA] [pageC] pageB (by decide)

/-- Claim C6: the batch refill loop terminates only when either no
pending task remains or the pool reports no spare capacity (so the pool
is kept saturated while pending batch tasks remain), and every task taken
from the queue is submitted exactly once (workers occupied plus tasks
still pending is conserved). -/
theorem c6_refill_saturates_pool (capacity pending running : Nat) :
    ((batchRefillLoop capacity pending running).1 = 0 ∨
      ¬ ((batchRefillLoop capacity pending running).2 < capacity)) ∧
    (batchRefillLoop capacity pending running).2 + (batchRefillLoop capacity pending running).1 =
      running + pending := by
  induction pending generalizing running with
  | zero => simp [batchRefillLoop]
  | succ pending ih =>
    by_cases hc : running + 1 < capacity
    · have heq : batchRefillLoop capacity (pending + 1) running =
          batchRefillLoop capacity pending (running + 1) := by
        simp [batchRefillLoop, hc]
      rw [heq]
      refine ⟨(ih (running + 1)).1, ?_⟩
      rw [(ih (running + 1)).2]
      omega
    · have heq : batchRefillLoop capacity (pending + 1) running = (pending, running + 1) := by
        simp [batchRefillLoop, hc]
      rw [heq]
      exact ⟨Or.inr (by simpa using hc), by omega⟩

/-- Claim C5: for every completed task, filterResult first reports the
completion to the interactive queue and, when a batch queue exists, to
it as well - before anything else, cancelled or not; and when the task's
cancellation flag is set it returns right after that bookkeeping: no
result delivery, no focus redirect, no batch refill, and the current
filter is unchanged. -/
theorem c5_cancelled_still_finishes_queue :
    (∀ s : FRState, ∃ rest, (filterResult s).1 = finishedActions s ++ rest) ∧
    (∀ s : FRState, FRAction.interactiveFinished ∈ (filterResult s).1 ∧
      (s.batchPresent = true → FRAction.batchFinished ∈ (filterResult s).1)) ∧
    (∀ s : FRState, s.cancelled = true →
      (filterResult s).1 = finishedActions s ∧
      (filterResult s).2 = s.curFilter ∧
      FRAction.deliverResult ∉ (filterResult s).1 ∧
      (∀ i : Int, FRAction.redirectFocus i ∉ (filterResult s).1) ∧
      FRAction.submitTask ∉ (filterResult s).1) := by
  have hfin : ∀ s : FRState, ∃ rest, (filterResult s).1 = finishedActions s ++ rest := by
    intro s
    by_cases hc : s.cancelled
    · exact ⟨[], by simp [filterResult, hc]⟩
    · by_cases hb : s.batchPresent
      · by_cases ha : s.batchAllProcessed
        · exact ⟨FRAction.deliverResult :: FRAction.stopBatch ::
            (if s.finishedAtLastPage then [FRAction.goFirstPage] else []),
            by simp [filterResult, hc, hb, ha]⟩
        · exact ⟨FRAction.deliverResult ::
            (List.replicate
              (s.batchPending - (batchRefillLoop s.poolCapacity s.batchPending s.poolRunning).1)
              FRAction.submitTask ++
              (if s.batchSelectedPageNull then [] else [FRAction.setSelectedPage])),
            by simp [filterResult, hc, hb, ha]⟩
      · refine ⟨(match s.resultFilterIdx with
          | none => ([], s.curFilter)
          | some idx =>
            if idx = s.curFilter then ([], s.curFilter)
            else ([FRAction.redirectFocus idx], idx)).1 ++ [FRAction.deliverResult],
          by simp [filterResult, hc, hb]⟩
  refine ⟨hfin, fun s => ?_, fun s hc => ?_⟩
  · obtain ⟨rest, hrest⟩ := hfin s
    rw [hrest]
    constructor
    · simp [finishedActions]
    · intro hb
      simp [finishedActions, hb]
  · have h1 : (filterResult s).1 = finishedActions s := by simp [filterResult, hc]
    refine ⟨h1, by simp [filterResult, hc], ?_, ?_, ?_⟩
    · rw [h1]
      by_cases hb : s.batchPresent <;> simp [finishedActions, hb]
    · intro i
      rw [h1]
      by_cases hb : s.batchPresent <;> simp [finishedActions, hb]
    · rw [h1]
      by_cases hb : s.batchPresent <;> simp [finishedActions, hb]

/-- Witness for C5 on a concrete cancelled batch-mode task: only the two
queue notifications happen. -/
theorem c5_cancelled_still_finishes_queue_witness :
    (filterResult ⟨true, true, some 2, 1, false, false, 2, 0, 3, false⟩).1 =
      finishedActions ⟨true, true, some 2, 1, false, false, 2, 0, 3, false⟩ ∧
    FRAction.deliverResult ∉ (filterResult ⟨true, true, some 2, 1, false, false, 2, 0, 3, false⟩).1 :=
  ⟨(c5_cancelled_still_finishes_queue.2.2 _ rfl).1,
    (c5_cancelled_still_finishes_queue.2.2 _ rfl).2.2.1⟩

/-- Counterexample to claim C8 as stated: in batch mode, a delivered,
non-cancelled result originating from stage 0 while stage 5 is current
does not redirect focus - the current filter stays at 5 and no row
selection for stage 0 occurs. -/
theorem c8_counterexample_no_redirect_in_batch :
    (filterResult ⟨false, true, some 0, 5, true, false, 1, 0, 0, true⟩).2 = 5 ∧
    FRAction.redirectFocus 0 ∉ (filterResult ⟨false, true, some 0, 5, true, false, 1, 0, 0, true⟩).1 := by
  decide

/-- Claim C8, amended: when no batch processing is in progress and a
delivered, non-cancelled Result originates from a (non-null) stage other
than the currently selected one, the requester redirects UI focus to the
failing stage: the current filter index is set to the index of the
result's originating filter and that row is selected. -/
theorem c8_redirect_focus_to_failing_stage (s : FRState) (idx : Int)
    (hc : s.cancelled = false) (hb : s.batchPresent = false)
    (hr : s.resultFilterIdx = some idx) (hne : idx ≠ s.curFilter) :
    (filterResult s).2 = idx ∧ FRAction.redirectFocus idx ∈ (filterResult s).1 := by
  constructor <;> simp [filterResult, hc, hb, hr, hne, finishedActions]

/-- Witness for C8 (amended) at a concrete state: an interactive result
from stage 3 while stage 5 is current moves the current filter to 3 and
selects its row. -/
theorem c8_redirect_focus_to_failing_stage_witness :
    (filterResult ⟨false, false, some 3, 5, false, false, 2, 0, 0, true⟩).2 = 3 ∧
    FRAction.redirectFocus 3 ∈ (filterResult ⟨false, false, some 3, 5, false, false, 2, 0, 0, true⟩).1 :=
  c8_redirect_focus_to_failing_stage _ 3 rfl rfl rfl (by decide)

/-- Claim C7: on a stage-selection change (guards passed, propagators
created), the content-box propagator runs exactly when the selection
crosses from not-below to below the select-content stage, the orientation
propagator exactly on the symmetric fix-orientation crossing, the
thumbnail-sequence reset always happens, and whenever a propagator runs
it occurs strictly before the thumbnail-sequence reset. -/
theorem c7_propagators_run_before_thumb_reset (s : FSCState)
    (hig : s.ignoreSelectionChanges = false) (hse : s.selectionEmpty = false)
    (hcp : s.contentBoxPropagatorPresent = true)
    (hop : s.pageOrientationPropagatorPresent = true) :
    (FSCAction.contentBoxPropagate ∈ filterSelectionChanged s ↔
      (isBelowSelectContent s.curFilter = false ∧ isBelowSelectContent s.newFilter = true)) ∧
    (FSCAction.orientationPropagate ∈ filterSelectionChanged s ↔
      (isBelowFixOrientation s.curFilter = false ∧ isBelowFixOrientation s.newFilter = true)) ∧
    FSCAction.resetThumbs ∈ filterSelectionChanged s ∧
    (FSCAction.contentBoxPropagate ∈ filterSelectionChanged s →
      FSCAction.contentBoxPropagate ∈
        (filterSelectionChanged s).takeWhile (fun a => a ≠ FSCAction.resetThumbs)) ∧
    (FSCAction.orientationPropagate ∈ filterSelectionChanged s →
      FSCAction.orientationPropagate ∈
        (filterSelectionChanged s).takeWhile (fun a => a ≠ FSCAction.resetThumbs)) := by
  cases hsc1 : isBelowSelectContent s.curFilter <;>
    cases hsc2 : isBelowSelectContent s.newFilter <;>
      cases hfo1 : isBelowFixOrientation s.curFilter <;>
        cases hfo2 : isBelowFixOrientation s.newFilter <;>
          cases hb : s.batchPresent <;>
            simp [filterSelectionChanged, hig, hse, hcp, hop, hsc1, hsc2, hfo1, hfo2, hb,
              List.takeWhile]

/-- Witness for C7 at the concrete crossing from select-content (3) to
page-layout (4): the content-box propagator runs, does so before the
thumbnail reset, and the orientation propagator does not run. -/
theorem c7_propagators_run_before_thumb_reset_witness :
    FSCAction.contentBoxPropagate ∈
      filterSelectionChanged ⟨false, false, 3, 4, false, true, true⟩ ∧
    FSCAction.contentBoxPropagate ∈
      (filterSelectionChanged ⟨false, false, 3, 4, false, true, true⟩).takeWhile
        (fun a => a ≠ FSCAction.resetThumbs) ∧
    FSCAction.orientationPropagate ∉
      filterSelectionChanged ⟨false, false, 3, 4, false, true, true⟩ := by
  have h := c7_propagators_run_before_thumb_reset ⟨false, false, 3, 4, false, true, true⟩
    rfl rfl rfl rfl
  have hmem : FSCAction.contentBoxPropagate ∈
      filterSelectionChanged ⟨false, false, 3, 4, false, true, true⟩ :=
    h.1.mpr (by constructor <;> decide)
  refine ⟨hmem, h.2.2.2.1 hmem, fun hor => ?_⟩
  have hcross := h.2.1.mp hor
  have : isBelowFixOrientation 3 = true := by decide
  rw [this] at hcross
  exact Bool.noConfusion hcross.1

/-- Claim C9: after a thumbnail-sequence reset that does not keep the
selection, the new selection is the first matching candidate in the fixed
order: the remembered page with its same sub-page tag, then the same
image as a left page, as a right page, as a single page, and finally the
first page of the sequence when none of the four candidates is present. -/
theorem c9_selection_fallback_order (seq : List PageId) (r : PageId) :
    (r ∈ seq → resetThumbSequenceSelection seq r = some r) ∧
    (r ∉ seq → (⟨r.image, SubPage.left⟩ : PageId) ∈ seq →
      resetThumbSequenceSelection seq r = some ⟨r.image, SubPage.left⟩) ∧
    (r ∉ seq → (⟨r.image, SubPage.left⟩ : PageId) ∉ seq →
      (⟨r.image, SubPage.right⟩ : PageId) ∈ seq →
      resetThumbSequenceSelection seq r = some ⟨r.image, SubPage.right⟩) ∧
    (r ∉ seq → (⟨r.image, SubPage.left⟩ : PageId) ∉ seq →
      (⟨r.image, SubPage.right⟩ : PageId) ∉ seq →
      (⟨r.image, SubPage.single⟩ : PageId) ∈ seq →
      resetThumbSequenceSelection seq r = some ⟨r.image, SubPage.single⟩) ∧
    (r ∉ seq → (⟨r.image, SubPage.left⟩ : PageId) ∉ seq →
      (⟨r.image, SubPage.right⟩ : PageId) ∉ seq →
      (⟨r.image, SubPage.single⟩ : PageId) ∉ seq →
      resetThumbSequenceSelection seq r = seq.head?) := by
  refine ⟨fun h1 => ?_, fun h1 h2 => ?_, fun h1 h2 h3 => ?_, fun h1 h2 h3 h4 => ?_,
    fun h1 h2 h3 h4 => ?_⟩ <;>
    simp [resetThumbSequenceSelection, setSelection, h1, *]

/-- Witness for C9: a remembered single page whose image survives only as
a left page falls back to the left sub-page. -/
theorem c9_selection_fallback_order_witness :
    resetThumbSequenceSelection [⟨7, SubPage.left⟩] ⟨7, SubPage.single⟩ =
      some ⟨7, SubPage.left⟩ :=
  (c9_selection_fallback_order [⟨7, SubPage.left⟩] ⟨7, SubPage.single⟩).2.1
    (by decide) (by decide)

end ScanTailor
